import Mathlib

/-!
Verification development for the patch orchestration core of `rpatchur`
(`src/patcher/core.rs`).  The Rust routines are shallowly embedded as pure
Lean functions; every externally supplied behaviour (HTTP transfers, the
filesystem, the cancellation module, the thor archive codec) is represented
by an explicit per-step oracle passed in as an argument, and every
observable action of a run (UI status dispatches, error/warning logs, the
start of each per-entry download or apply step, checkpoint writes) is
recorded in an event trace returned alongside the result.
-/

namespace Rpatchur

/-- One entry of the remote patch list: the ordering/resume index and the
remote file name.  Mirrors `thor::ThorPatchInfo` as consumed by
`patcher/core.rs`. -/
structure ThorPatchInfo where
  index : Nat
  file_name : String
  deriving DecidableEq

/-- Ordered patch list; mirrors `thor::ThorPatchList` (a vector of
`ThorPatchInfo`). -/
abbrev ThorPatchList := List ThorPatchInfo

/-- Persisted checkpoint record; mirrors `cache::PatcherCache` with its
single `last_patch_index` field. -/
structure PatcherCache where
  last_patch_index : Nat
  deriving DecidableEq

/-- A local temporary file, modelled as its byte content together with the
current stream position.  Stands for the `std::fs::File` produced by
`tempfile::tempfile()` and filled by `download_patch`. -/
structure LocalFile where
  content : List Nat
  pos : Nat
  deriving DecidableEq

/-- A patch that has been downloaded but not applied yet
(`PendingPatch` in `core.rs`). -/
structure PendingPatch where
  info : ThorPatchInfo
  local_file : LocalFile
  deriving DecidableEq

/-- Status events dispatched to the UI controller.  The first four
constructors are exactly the ones `patcher/core.rs` constructs.
`Cancelled` is modelled from the spec: `crate::ui` is not among the
sources and the spec lists an (implicit) distinguished `Cancelled`
terminal outcome, so the constructor is made available here; note that
`core.rs` never dispatches it. -/
inductive PatchingStatus
  | Ready
  | Error (msg : String)
  | DownloadInProgress (nb_downloaded : Nat) (nb_total : Nat)
  | InstallationInProgress (nb_installed : Nat) (nb_total : Nat)
  | Cancelled
  deriving DecidableEq

/-- Error type of the interruptible phases.  Modelled from the spec: the
`cancellation` module is not among the sources; the spec describes a fatal
error message (`Err`) and "a distinguished interrupted outcome"
(`Interrupted`), matching the two variants `core.rs` pattern-matches on. -/
inductive InterruptibleFnError
  | Err (msg : String)
  | Interrupted
  deriving DecidableEq

/-- Observable events of a run: UI status dispatches
(`ui_controller.dispatch_patching_status`), error and warning log lines,
markers for the start of each per-entry download / apply step, and
checkpoint write attempts (`write_cache_file`) tagged with the record
index written and whether the write succeeded. -/
inductive Event
  | status (s : PatchingStatus)
  | logError (msg : String)
  | logWarn (msg : String)
  | downloadStart (file_name : String)
  | applyStart (file_name : String)
  | cacheWrite (idx : Nat) (ok : Bool)
  deriving DecidableEq

/-- Commands consumed from the inbound channel.  Modelled from the spec:
the `PatcherCommand` type lives in the parent module which is not among
the sources; the spec requires at minimum the variants `Start` and
`Cancel`, and `core.rs` only ever matches on `Start`. -/
inductive PatcherCommand
  | Start
  | Cancel
  deriving DecidableEq

/-- Web section of the patcher configuration (`config.web`), carrying the
two configured URL strings `core.rs` reads. -/
structure WebConfiguration where
  plist_url : String
  patch_url : String
  deriving DecidableEq

/-- Client section of the patcher configuration (`config.client`); its
`default_grf_name` is consumed inside the oracled apply step. -/
structure ClientConfiguration where
  default_grf_name : String
  deriving DecidableEq

/-- Patching section of the patcher configuration (`config.patching`); its
`in_place` flag selects the GRF patching method inside the oracled apply
step. -/
structure PatchingConfiguration where
  in_place : Bool
  deriving DecidableEq

/-- The patcher configuration, restricted to the fields `core.rs` uses. -/
structure PatcherConfiguration where
  web : WebConfiguration
  client : ClientConfiguration
  patching : PatchingConfiguration
  deriving DecidableEq

/-- A parsed URL.  The `url` crate is an external collaborator; parsing
success is decided by a validity oracle, so a `Url` is just a string that
the oracle accepted. -/
structure Url where
  raw : String
  deriving DecidableEq

/-- Models `Url::parse`: returns `some` exactly when the supplied validity
oracle accepts the string.  `core.rs` calls this with `.unwrap()`. -/
def Url.parse (url_valid : String → Bool) (s : String) : Option Url :=
  if url_valid s then some { raw := s } else none

/-- Outcome of the routine or of the whole patching thread: either the
embedded Rust code panicked (an `unwrap` on `None`/`Err`), or it ran to
completion with a value. -/
inductive RunResult (α : Type)
  | panicked
  | done (a : α)
  deriving DecidableEq

/-- Models `get_cache_file_path` (core.rs:154-160): derives the checkpoint
file path from the patcher name, or `none` when the name cannot be
resolved.  `get_patcher_name` lives in the parent module (not among the
sources) and is passed in as an oracle value; the path itself is the name
plus the fixed `dat` extension (the supplied name is an extensionless
product name, so `with_extension` amounts to appending it). -/
def get_cache_file_path (patcher_name : Option String) : Option String :=
  patcher_name.map (fun nm => nm ++ ".dat")

/-- Models the checkpoint filtering block of `interruptible_patcher_routine`
(core.rs:85-94): if some entry of the fetched list has the cached index,
retain only the entries with a strictly greater index (preserving order);
otherwise leave the list untouched. -/
def filter_patch_list (patch_list : ThorPatchList) (patcher_cache : PatcherCache) :
    ThorPatchList :=
  let should_filter_patch_list :=
    patch_list.any (fun x => x.index == patcher_cache.last_patch_index)
  if should_filter_patch_list then
    patch_list.filter (fun x => decide (patcher_cache.last_patch_index < x.index))
  else
    patch_list

/-- Models `if let Ok(patcher_cache) = read_cache_file(..)` around the
filtering block (core.rs:85-94): a failed checkpoint read leaves the patch
list unfiltered. -/
def effective_patch_list (patch_list : ThorPatchList)
    (cache_read : Except String PatcherCache) : ThorPatchList :=
  match cache_read with
  | .ok patcher_cache => filter_patch_list patch_list patcher_cache
  | .error _ => patch_list

/-- Environment response for one iteration of the download loop: the
result of creating the temporary file and of racing `download_patch`
against the cancellation source (`tokio::select!` in core.rs:184-191).
`tempErr` — `tempfile::tempfile()` failed; `cancelled` —
`wait_for_cancellation` won the race (modelled from the spec as the
distinguished interrupted outcome, the cancellation module not being among
the sources); `dlErr m` — `download_patch` failed, `m` being the message
it already formatted; `dlOk content` — `download_patch` wrote the complete
payload `content` into the file and flushed it, leaving the stream
position at the end of the file. -/
inductive DlStepOutcome
  | tempErr (msg : String)
  | cancelled
  | dlErr (msg : String)
  | dlOk (content : List Nat)
  deriving DecidableEq

/-- Models `tmp_file.seek(SeekFrom::Start(0))` (core.rs:194).  The source
discards the `io::Result`; seeking a regular file to absolute offset 0
cannot fail, so the position update is modelled as unconditional. -/
def seek_to_start (f : LocalFile) : LocalFile :=
  { f with pos := 0 }

/-- The per-entry loop of `download_patches` (core.rs:179-206); `n` is the
0-based `patch_number` yielded by `enumerate()`.  On success the freshly
downloaded file is rewound and queued, then a
`DownloadInProgress(patch_number, patch_count)` status is dispatched. -/
def download_loop (env : Nat → DlStepOutcome) (patch_count : Nat) :
    ThorPatchList → Nat → Except InterruptibleFnError (List PendingPatch) × List Event
  | [], _ => (.ok [], [])
  | patch :: rest, n =>
    match env n with
    | .tempErr m =>
      (.error (.Err ("Failed to create temporary file: " ++ m ++ ".")), [])
    | .cancelled => (.error .Interrupted, [Event.downloadStart patch.file_name])
    | .dlErr m => (.error (.Err m), [Event.downloadStart patch.file_name])
    | .dlOk content =>
      let tmp_file : LocalFile := { content := content, pos := content.length }
      let tmp_file := seek_to_start tmp_file
      let rest_out := download_loop env patch_count rest (n + 1)
      (Except.map
          (fun q => ({ info := patch, local_file := tmp_file } : PendingPatch) :: q)
          rest_out.1,
        Event.downloadStart patch.file_name ::
          Event.status (.DownloadInProgress n patch_count) :: rest_out.2)

/-- Models `download_patches` (core.rs:168-208): one initial
`DownloadInProgress(0, patch_count)` dispatch, then the sequential,
cancellation-raced download of every entry. -/
def download_patches (patch_list : ThorPatchList) (env : Nat → DlStepOutcome) :
    Except InterruptibleFnError (List PendingPatch) × List Event :=
  let patch_count := patch_list.length
  let dl := download_loop env patch_count patch_list 0
  (dl.1, Event.status (.DownloadInProgress 0 patch_count) :: dl.2)

/-- Result of the (oracled) per-entry apply step of `apply_patches`:
`openErr m` — `ThorArchive::new` could not read the downloaded archive
(core.rs:273-281); `patchErr m` — `apply_patch_to_grf` or
`apply_patch_to_disk` failed (core.rs:283-315); `ok` — the entry was fully
applied.  The thor codec and the `patching` module are external
collaborators, so their results, with the messages the source formats from
them, are supplied by the oracle. -/
inductive ApplyStepOutcome
  | openErr (msg : String)
  | patchErr (msg : String)
  | ok
  deriving DecidableEq

/-- Environment responses for one iteration of the apply loop:
`cancel` — whether the non-blocking `check_for_cancellation` poll reports
a cancellation (modelled from the spec, the cancellation module not being
among the sources); `outcome` — the result of opening and applying the
archive; `write_ok` — whether `write_cache_file` succeeds. -/
structure ApplyStepEnv where
  cancel : Bool
  outcome : ApplyStepOutcome
  write_ok : Bool
  deriving DecidableEq

/-- Events produced by the checkpoint update after a successful apply step
(core.rs:316-326): the write attempt, and on failure the warning log
(`write_cache_file` failure is logged and ignored). -/
def write_cache_events (idx : Nat) (ok : Bool) : List Event :=
  if ok then [Event.cacheWrite idx true]
  else [Event.cacheWrite idx false, Event.logWarn ("Failed to write cache file.")]

/-- The per-entry loop of `apply_patches` (core.rs:267-334); `n` is the
0-based `patch_number` yielded by `enumerate()`.  Cancellation is polled
non-blockingly before each entry; on a fully successful apply the
checkpoint is written (non-fatally) with this entry's index and an
`InstallationInProgress(patch_number, patch_count)` status is
dispatched. -/
def apply_loop (env : Nat → ApplyStepEnv) (patch_count : Nat) :
    List PendingPatch → Nat → Except InterruptibleFnError Unit × List Event
  | [], _ => (.ok (), [])
  | pending_patch :: rest, n =>
    if (env n).cancel then (.error .Interrupted, [])
    else
      match (env n).outcome with
      | .openErr m => (.error (.Err m), [Event.applyStart pending_patch.info.file_name])
      | .patchErr m => (.error (.Err m), [Event.applyStart pending_patch.info.file_name])
      | .ok =>
        let rest_out := apply_loop env patch_count rest (n + 1)
        (rest_out.1,
          Event.applyStart pending_patch.info.file_name ::
            (write_cache_events pending_patch.info.index (env n).write_ok ++
              Event.status (.InstallationInProgress n patch_count) :: rest_out.2))

/-- Models `apply_patches` (core.rs:250-336): resolve the current working
directory (fatal on failure), dispatch the initial
`InstallationInProgress(0, patch_count)` status, then run the per-entry
apply loop. -/
def apply_patches (pending_patch_queue : List PendingPatch)
    (cwd_res : Except String Unit) (env : Nat → ApplyStepEnv) :
    Except InterruptibleFnError Unit × List Event :=
  match cwd_res with
  | .error e =>
    (.error (.Err ("Failed to resolve current working directory: " ++ e ++ ".")), [])
  | .ok _ =>
    let patch_count := pending_patch_queue.length
    let ap := apply_loop env patch_count pending_patch_queue 0
    (ap.1, Event.status (.InstallationInProgress 0 patch_count) :: ap.2)

/-- All externally supplied behaviour of one run of
`interruptible_patcher_routine`: URL validity (the `url` crate),
the manifest fetch result (`fetch_patch_list`, whose own message
formatting is folded into the carried string), the resolved patcher name
(`get_patcher_name`), the checkpoint read result (`read_cache_file`),
the per-entry download oracle, the working-directory resolution, and the
per-entry apply oracle. -/
structure RoutineEnv where
  url_valid : String → Bool
  fetch_res : Except String ThorPatchList
  patcher_name : Option String
  cache_read : Except String PatcherCache
  dl_env : Nat → DlStepOutcome
  cwd_res : Except String Unit
  apply_env : Nat → ApplyStepEnv

/-- Models `interruptible_patcher_routine` (core.rs:70-132): parse the
patch-list URL (`unwrap`), fetch the patch list, derive the checkpoint
path (fatal when the patcher name cannot be resolved), filter the list
against the checkpoint (soft-failing read), parse the patch base URL
(`unwrap`), download all pending patches, apply them, and dispatch
`Ready`.  An `Interrupted` outcome of either phase is mapped to the fixed
message "Patching was canceled". -/
def interruptible_patcher_routine (config : PatcherConfiguration) (env : RoutineEnv) :
    RunResult (Except String Unit) × List Event :=
  match Url.parse env.url_valid config.web.plist_url with
  | none => (.panicked, [])
  | some _ =>
    match env.fetch_res with
    | .error e =>
      (.done (.error ("Failed to retrieve the patch list: " ++ e ++ ".")), [])
    | .ok patch_list =>
      match get_cache_file_path env.patcher_name with
      | none => (.done (.error ("Failed to resolve patcher name.")), [])
      | some _ =>
        let patch_list := effective_patch_list patch_list env.cache_read
        match Url.parse env.url_valid config.web.patch_url with
        | none => (.panicked, [])
        | some _ =>
          let dl := download_patches patch_list env.dl_env
          match dl.1 with
          | .error (.Err msg) =>
            (.done (.error ("Failed to download patches: " ++ msg ++ ".")), dl.2)
          | .error .Interrupted =>
            (.done (.error ("Patching was canceled")), dl.2)
          | .ok pending_patch_queue =>
            let ap := apply_patches pending_patch_queue env.cwd_res env.apply_env
            match ap.1 with
            | .error (.Err msg) =>
              (.done (.error ("Failed to apply patches: " ++ msg ++ ".")), dl.2 ++ ap.2)
            | .error .Interrupted =>
              (.done (.error ("Patching was canceled")), dl.2 ++ ap.2)
            | .ok _ => (.done (.ok ()), dl.2 ++ ap.2 ++ [Event.status .Ready])

/-- Models `wait_for_start_command` (core.rs:52-64).  The inbound channel
is modelled as the finite list of commands it will still deliver;
exhausting the list models `recv()` returning `None` (channel closed).
Commands other than `Start` are skipped; on `Start` the remaining commands
are handed back. -/
def wait_for_start_command : List PatcherCommand → Except String (List PatcherCommand)
  | [] => .error ("Channel has been closed")
  | PatcherCommand.Start :: rest => .ok rest
  | PatcherCommand.Cancel :: rest => wait_for_start_command rest

/-- Models `patcher_thread_routine` (core.rs:28-48): wait for `Start`
(on channel closure, log the error and end without dispatching any
status); then run the interruptible routine, and on an error outcome log
the message and dispatch it as a `PatchingStatus::Error`. -/
def patcher_thread_routine (config : PatcherConfiguration) (env : RoutineEnv)
    (commands : List PatcherCommand) : RunResult Unit × List Event :=
  match wait_for_start_command commands with
  | .error e =>
    (.done (), [Event.logError ("Failed to wait for start command: " ++ e)])
  | .ok _ =>
    match interruptible_patcher_routine config env with
    | (.panicked, evts) => (.panicked, evts)
    | (.done (.error err_msg), evts) =>
      (.done (), evts ++ [Event.logError err_msg, Event.status (.Error err_msg)])
    | (.done (.ok _), evts) => (.done (), evts)

/-- Extracts the index of a checkpoint write attempt. -/
def write_attempt_index : Event → Option Nat
  | .cacheWrite idx _ => some idx
  | _ => none

/-- Extracts the index of a successful checkpoint write. -/
def write_success_index : Event → Option Nat
  | .cacheWrite idx true => some idx
  | _ => none

/-- Extracts the file name of an apply-step start marker. -/
def apply_start_name : Event → Option String
  | .applyStart f => some f
  | _ => none

/-- Extracts the file name of a download-step start marker. -/
def download_start_name : Event → Option String
  | .downloadStart f => some f
  | _ => none

/-- Extracts a dispatched UI status from an event. -/
def status_event : Event → Option PatchingStatus
  | .status s => some s
  | _ => none

/-- Whether an event belongs to the download phase. -/
def is_download_event : Event → Bool
  | .downloadStart _ => true
  | .status (.DownloadInProgress _ _) => true
  | _ => false

/-- Whether an event belongs to the apply phase. -/
def is_apply_event : Event → Bool
  | .applyStart _ => true
  | .status (.InstallationInProgress _ _) => true
  | .cacheWrite _ _ => true
  | _ => false

/-- Specification-side count of the entries the apply loop fully applies,
starting at position `n`: entries are counted while the cancellation poll
is silent and the apply step succeeds. -/
def applied_len (env : Nat → ApplyStepEnv) : List PendingPatch → Nat → Nat
  | [], _ => 0
  | _ :: rest, n =>
    if (env n).cancel then 0
    else
      match (env n).outcome with
      | .ok => applied_len env rest (n + 1) + 1
      | _ => 0

/-- Specification-side count of the entries the apply loop starts
processing (a failing entry is started; a cancelled-away entry is not). -/
def started_len (env : Nat → ApplyStepEnv) : List PendingPatch → Nat → Nat
  | [], _ => 0
  | _ :: rest, n =>
    if (env n).cancel then 0
    else
      match (env n).outcome with
      | .ok => started_len env rest (n + 1) + 1
      | _ => 1

/-! Concrete inputs used by witness runs and counterexamples. -/

/-- Concrete two-entry manifest used by the C1 witness. -/
def c1_M : ThorPatchList :=
  [{ index := 1, file_name := "a.thor" }, { index := 2, file_name := "b.thor" }]

/-- Concrete two-entry pending queue used by the C2 witness. -/
def c2_q : List PendingPatch :=
  [⟨⟨3, "a.thor"⟩, ⟨[], 0⟩⟩, ⟨⟨5, "b.thor"⟩, ⟨[], 0⟩⟩]

/-- Apply-step environment for the C2 witness: both patches apply, the
second checkpoint write fails. -/
def c2_env : Nat → ApplyStepEnv := fun n =>
  if n = 0 then ⟨false, .ok, true⟩ else ⟨false, .ok, false⟩

/-- Apply-step environment agreeing with `c2_env` except that every
checkpoint write succeeds. -/
def c2_env2 : Nat → ApplyStepEnv := fun _ => ⟨false, .ok, true⟩

/-- Three-entry pending queue used by the C5 witness. -/
def c5_q : List PendingPatch :=
  [⟨⟨1, "a.thor"⟩, ⟨[], 0⟩⟩, ⟨⟨2, "b.thor"⟩, ⟨[], 0⟩⟩, ⟨⟨3, "c.thor"⟩, ⟨[], 0⟩⟩]

/-- Apply-step environment for the C5 witness: cancellation signalled
right before the third patch. -/
def c5_env : Nat → ApplyStepEnv := fun n =>
  if n < 2 then ⟨false, .ok, true⟩ else ⟨true, .ok, true⟩

/-- One-entry manifest used by the C7 witness. -/
def c7_list : ThorPatchList := [{ index := 1, file_name := "a.thor" }]

/-- Download environment for the C7 witness: the single download succeeds
with a two-byte payload. -/
def c7_env : Nat → DlStepOutcome := fun _ => .dlOk [7, 9]

/-- Queue produced by the C7 witness run. -/
def c7_q : List PendingPatch := [⟨⟨1, "a.thor"⟩, ⟨[7, 9], 0⟩⟩]

/-- Configuration used by the concrete routine-level runs. -/
def demo_config : PatcherConfiguration where
  web := { plist_url := "http:plist", patch_url := "http:patch" }
  client := { default_grf_name := "data.grf" }
  patching := { in_place := true }

/-- One-entry manifest used by the routine-level runs. -/
def demo_M : ThorPatchList := [{ index := 1, file_name := "a.thor" }]

/-- Routine environment where the download of the first entry is
cancelled, used by the C4 counterexample and witness. -/
def c4_env : RoutineEnv where
  url_valid := fun _ => true
  fetch_res := .ok demo_M
  patcher_name := some ("patcher")
  cache_read := .error ("no cache")
  dl_env := fun _ => .cancelled
  cwd_res := .ok ()
  apply_env := fun _ => ⟨false, .ok, true⟩

/-- Routine environment where the download of the first entry is
cancelled, used by the C3 witness. -/
def c3_env : RoutineEnv where
  url_valid := fun _ => true
  fetch_res := .ok demo_M
  patcher_name := some ("patcher")
  cache_read := .error ("no cache")
  dl_env := fun _ => .cancelled
  cwd_res := .ok ()
  apply_env := fun _ => ⟨false, .ok, true⟩

/-- One-entry manifest used by the C6 evaluation. -/
def c6_list : ThorPatchList := [{ index := 1, file_name := "a.thor" }]

/-- Download environment for the C6 evaluation: the single download
succeeds. -/
def c6_dl_env : Nat → DlStepOutcome := fun _ => .dlOk []

/-- One-entry pending queue for the C6 evaluation. -/
def c6_q : List PendingPatch := [⟨⟨1, "a.thor"⟩, ⟨[], 0⟩⟩]

/-- Apply-step environment for the C6 evaluation: the single patch
applies and its checkpoint write succeeds. -/
def c6_apply_env : Nat → ApplyStepEnv := fun _ => ⟨false, .ok, true⟩

/-- Routine environment whose configured URLs are all rejected by the
validity oracle, used by the C9 witness. -/
def c9_env : RoutineEnv where
  url_valid := fun _ => false
  fetch_res := .ok demo_M
  patcher_name := some ("patcher")
  cache_read := .error ("no cache")
  dl_env := fun _ => .dlOk []
  cwd_res := .ok ()
  apply_env := fun _ => ⟨false, .ok, true⟩

/-- Routine environment whose configured URLs are all accepted and whose
run succeeds end to end, used by the C9 witness. -/
def c9_env_good : RoutineEnv where
  url_valid := fun _ => true
  fetch_res := .ok demo_M
  patcher_name := some ("patcher")
  cache_read := .error ("no cache")
  dl_env := fun _ => .dlOk []
  cwd_res := .ok ()
  apply_env := fun _ => ⟨false, .ok, true⟩

/-- Routine environment whose patcher name cannot be resolved, used by
the C10 witness. -/
def c10_env : RoutineEnv where
  url_valid := fun _ => true
  fetch_res := .ok demo_M
  patcher_name := none
  cache_read := .error ("no cache")
  dl_env := fun _ => .dlOk []
  cwd_res := .ok ()
  apply_env := fun _ => ⟨false, .ok, true⟩

/-- Routine environment with a resolvable patcher name but a failing
checkpoint read, used by the C10 witness. -/
def c10_env_named : RoutineEnv where
  url_valid := fun _ => true
  fetch_res := .ok demo_M
  patcher_name := some ("patcher")
  cache_read := .error ("no cache")
  dl_env := fun _ => .dlOk []
  cwd_res := .ok ()
  apply_env := fun _ => ⟨false, .ok, true⟩

/-! Helper lemmas about the download loop. -/

theorem download_loop_no_apply_event (env : Nat → DlStepOutcome) (patch_count : Nat) :
    ∀ (l : ThorPatchList) (n : Nat) (e : Event),
      e ∈ (download_loop env patch_count l n).2 → is_apply_event e = false := by
  intro l
  induction l with
  | nil =>
    intro n e he
    simp [download_loop] at he
  | cons p rest ih =>
    intro n e he
    cases h : env n with
    | tempErr m => simp [download_loop, h] at he
    | cancelled =>
      simp [download_loop, h] at he
      subst he; rfl
    | dlErr m =>
      simp [download_loop, h] at he
      subst he; rfl
    | dlOk content =>
      simp [download_loop, h] at he
      rcases he with he | he | he
      · subst he; rfl
      · subst he; rfl
      · exact ih (n + 1) e he

theorem download_loop_names_prefix (env : Nat → DlStepOutcome) (patch_count : Nat) :
    ∀ (l : ThorPatchList) (n : Nat),
      ∃ t, (download_loop env patch_count l n).2.filterMap download_start_name ++ t =
        l.map (fun p => p.file_name) := by
  intro l
  induction l with
  | nil =>
    intro n
    exact ⟨[], by simp [download_loop]⟩
  | cons p rest ih =>
    intro n
    cases h : env n with
    | tempErr m =>
      exact ⟨(p :: rest).map (fun p => p.file_name), by simp [download_loop, h]⟩
    | cancelled =>
      exact ⟨rest.map (fun p => p.file_name),
        by simp [download_loop, h, download_start_name]⟩
    | dlErr m =>
      exact ⟨rest.map (fun p => p.file_name),
        by simp [download_loop, h, download_start_name]⟩
    | dlOk content =>
      obtain ⟨t, ht⟩ := ih (n + 1)
      refine ⟨t, ?_⟩
      simpa [download_loop, h, download_start_name] using ht

theorem download_loop_ok_spec (env : Nat → DlStepOutcome) (patch_count : Nat) :
    ∀ (l : ThorPatchList) (n : Nat) (q : List PendingPatch),
      (download_loop env patch_count l n).1 = .ok q →
      q.map (fun pp => pp.info) = l ∧
      (download_loop env patch_count l n).2.filterMap download_start_name =
        l.map (fun p => p.file_name) ∧
      ∀ i (hi : i < q.length),
        ∃ content, env (n + i) = .dlOk content ∧
          (q.get ⟨i, hi⟩).local_file = { content := content, pos := 0 } := by
  intro l
  induction l with
  | nil =>
    intro n q h
    simp [download_loop] at h
    subst h
    refine ⟨rfl, by simp [download_loop], ?_⟩
    intro i hi
    simp at hi
  | cons p rest ih =>
    intro n q h
    cases hc : env n with
    | tempErr m => simp [download_loop, hc] at h
    | cancelled => simp [download_loop, hc] at h
    | dlErr m => simp [download_loop, hc] at h
    | dlOk content =>
      rw [show (download_loop env patch_count (p :: rest) n).1 =
          Except.map
            (fun q =>
              PendingPatch.mk p (seek_to_start (LocalFile.mk content content.length)) :: q)
            (download_loop env patch_count rest (n + 1)).1 by
        simp [download_loop, hc]] at h
      cases hr : (download_loop env patch_count rest (n + 1)).1 with
      | error e => rw [hr] at h; simp [Except.map] at h
      | ok q2 =>
        rw [hr] at h
        simp only [Except.map, Except.ok.injEq] at h
        obtain ⟨hmap, hnames, hget⟩ := ih (n + 1) q2 hr
        subst h
        refine ⟨by simp [hmap, seek_to_start], ?_, ?_⟩
        · simp [download_loop, hc, download_start_name, hnames]
        · intro i hi
          cases i with
          | zero =>
            exact ⟨content, by simpa using hc, by simp [seek_to_start]⟩
          | succ j =>
            have hj : j < q2.length := by simpa using hi
            obtain ⟨c2, hc2, hf2⟩ := hget j hj
            refine ⟨c2, ?_, ?_⟩
            · have e : n + (j + 1) = n + 1 + j := by omega
              rw [e]; exact hc2
            · simpa using hf2

/-! Helper lemmas about the apply loop. -/

theorem write_cache_events_attempts (idx : Nat) (ok : Bool) :
    (write_cache_events idx ok).filterMap write_attempt_index = [idx] := by
  cases ok <;> simp [write_cache_events, write_attempt_index]

theorem write_cache_events_no_apply_start (idx : Nat) (ok : Bool) :
    (write_cache_events idx ok).filterMap apply_start_name = [] := by
  cases ok <;> simp [write_cache_events, apply_start_name]

theorem write_cache_events_no_download (idx : Nat) (ok : Bool) (e : Event)
    (he : e ∈ write_cache_events idx ok) : is_download_event e = false := by
  cases ok <;> simp [write_cache_events] at he
  · rcases he with he | he <;> subst he <;> rfl
  · subst he; rfl

theorem apply_loop_no_download_event (env : Nat → ApplyStepEnv) (patch_count : Nat) :
    ∀ (q : List PendingPatch) (n : Nat) (e : Event),
      e ∈ (apply_loop env patch_count q n).2 → is_download_event e = false := by
  intro q
  induction q with
  | nil =>
    intro n e he
    simp [apply_loop] at he
  | cons p rest ih =>
    intro n e he
    cases hc : (env n).cancel with
    | true => simp [apply_loop, hc] at he
    | false =>
      cases ho : (env n).outcome with
      | openErr m =>
        simp [apply_loop, hc, ho] at he
        subst he; rfl
      | patchErr m =>
        simp [apply_loop, hc, ho] at he
        subst he; rfl
      | ok =>
        simp [apply_loop, hc, ho] at he
        rcases he with he | he | he | he
        · subst he; rfl
        · exact write_cache_events_no_download _ _ e he
        · subst he; rfl
        · exact ih (n + 1) e he

theorem apply_loop_write_attempts (env : Nat → ApplyStepEnv) (patch_count : Nat) :
    ∀ (q : List PendingPatch) (n : Nat),
      (apply_loop env patch_count q n).2.filterMap write_attempt_index =
        (q.take (applied_len env q n)).map (fun pp => pp.info.index) := by
  intro q
  induction q with
  | nil => intro n; simp [apply_loop, applied_len]
  | cons p rest ih =>
    intro n
    cases hc : (env n).cancel with
    | true => simp [apply_loop, applied_len, hc]
    | false =>
      cases ho : (env n).outcome with
      | openErr m =>
        simp [apply_loop, applied_len, hc, ho, write_attempt_index, apply_start_name]
      | patchErr m =>
        simp [apply_loop, applied_len, hc, ho, write_attempt_index, apply_start_name]
      | ok =>
        simp [apply_loop, applied_len, hc, ho, write_attempt_index, apply_start_name,
          write_cache_events_attempts, status_event, ih (n + 1)]

theorem apply_loop_start_names (env : Nat → ApplyStepEnv) (patch_count : Nat) :
    ∀ (q : List PendingPatch) (n : Nat),
      (apply_loop env patch_count q n).2.filterMap apply_start_name =
        (q.take (started_len env q n)).map (fun pp => pp.info.file_name) := by
  intro q
  induction q with
  | nil => intro n; simp [apply_loop, started_len]
  | cons p rest ih =>
    intro n
    cases hc : (env n).cancel with
    | true => simp [apply_loop, started_len, hc]
    | false =>
      cases ho : (env n).outcome with
      | openErr m =>
        simp [apply_loop, started_len, hc, ho, apply_start_name]
      | patchErr m =>
        simp [apply_loop, started_len, hc, ho, apply_start_name]
      | ok =>
        simp [apply_loop, started_len, hc, ho, apply_start_name,
          write_cache_events_no_apply_start, ih (n + 1)]

theorem apply_loop_write_ok_independent (env env2 : Nat → ApplyStepEnv) (patch_count : Nat)
    (hagree : ∀ i, (env2 i).cancel = (env i).cancel ∧ (env2 i).outcome = (env i).outcome) :
    ∀ (q : List PendingPatch) (n : Nat),
      (apply_loop env2 patch_count q n).1 = (apply_loop env patch_count q n).1 ∧
      (apply_loop env2 patch_count q n).2.filterMap apply_start_name =
        (apply_loop env patch_count q n).2.filterMap apply_start_name := by
  intro q
  induction q with
  | nil => intro n; exact ⟨rfl, rfl⟩
  | cons p rest ih =>
    intro n
    have hcanc := (hagree n).1
    have hout := (hagree n).2
    cases hc : (env n).cancel with
    | true =>
      have hc2 : (env2 n).cancel = true := by rw [hcanc, hc]
      simp [apply_loop, hc, hc2]
    | false =>
      have hc2 : (env2 n).cancel = false := by rw [hcanc, hc]
      cases ho : (env n).outcome with
      | openErr m =>
        have ho2 : (env2 n).outcome = .openErr m := by rw [hout, ho]
        simp [apply_loop, hc, hc2, ho, ho2]
      | patchErr m =>
        have ho2 : (env2 n).outcome = .patchErr m := by rw [hout, ho]
        simp [apply_loop, hc, hc2, ho, ho2]
      | ok =>
        have ho2 : (env2 n).outcome = .ok := by rw [hout, ho]
        obtain ⟨ih1, ih2⟩ := ih (n + 1)
        constructor
        · simp [apply_loop, hc, hc2, ho, ho2, ih1]
        · simp [apply_loop, hc, hc2, ho, ho2, apply_start_name,
            write_cache_events_no_apply_start, ih2]

theorem write_success_sublist (evts : List Event) :
    (evts.filterMap write_success_index).Sublist (evts.filterMap write_attempt_index) := by
  induction evts with
  | nil => simp
  | cons e rest ih =>
    cases e with
    | status s => simpa [write_success_index, write_attempt_index] using ih
    | logError m => simpa [write_success_index, write_attempt_index] using ih
    | logWarn m => simpa [write_success_index, write_attempt_index] using ih
    | downloadStart f => simpa [write_success_index, write_attempt_index] using ih
    | applyStart f => simpa [write_success_index, write_attempt_index] using ih
    | cacheWrite idx ok =>
      cases ok with
      | false =>
        simpa [write_success_index, write_attempt_index] using ih.cons idx
      | true =>
        simpa [write_success_index, write_attempt_index] using ih.cons₂ idx

theorem apply_loop_cancel_at (env : Nat → ApplyStepEnv) (patch_count : Nat) :
    ∀ (k : Nat) (q : List PendingPatch) (n : Nat),
      (∀ i, i < k → (env (n + i)).cancel = false ∧ (env (n + i)).outcome = .ok) →
      (env (n + k)).cancel = true →
      k < q.length →
      (apply_loop env patch_count q n).1 = .error .Interrupted ∧
      applied_len env q n = k ∧ started_len env q n = k := by
  intro k
  induction k with
  | zero =>
    intro q n hpre hk hlen
    cases q with
    | nil => simp at hlen
    | cons p rest =>
      have hk0 : (env n).cancel = true := by simpa using hk
      exact ⟨by simp [apply_loop, hk0], by simp [applied_len, hk0],
        by simp [started_len, hk0]⟩
  | succ k ih =>
    intro q n hpre hk hlen
    cases q with
    | nil => simp at hlen
    | cons p rest =>
      have h0 := hpre 0 (Nat.succ_pos k)
      have h0c : (env n).cancel = false := by simpa using h0.1
      have h0o : (env n).outcome = .ok := by simpa using h0.2
      have hpre2 : ∀ i, i < k →
          (env (n + 1 + i)).cancel = false ∧ (env (n + 1 + i)).outcome = .ok := by
        intro i hi
        have e : n + 1 + i = n + (i + 1) := by omega
        rw [e]
        exact hpre (i + 1) (by omega)
      have hk2 : (env (n + 1 + k)).cancel = true := by
        have e : n + 1 + k = n + (k + 1) := by omega
        rw [e]; exact hk
      have hlen2 : k < rest.length := by simpa using hlen
      obtain ⟨hres, hal, hsl⟩ := ih rest (n + 1) hpre2 hk2 hlen2
      refine ⟨?_, ?_, ?_⟩
      · simp [apply_loop, h0c, h0o, hres]
      · simp [applied_len, h0c, h0o, hal]
      · simp [started_len, h0c, h0o, hsl]

theorem no_apply_event_filterMap_start (evts : List Event)
    (h : ∀ e ∈ evts, is_apply_event e = false) :
    evts.filterMap apply_start_name = [] := by
  rw [List.filterMap_eq_nil_iff]
  intro e he
  have hne := h e he
  cases e <;> simp_all [is_apply_event, apply_start_name]

theorem no_download_event_filterMap_start (evts : List Event)
    (h : ∀ e ∈ evts, is_download_event e = false) :
    evts.filterMap download_start_name = [] := by
  rw [List.filterMap_eq_nil_iff]
  intro e he
  have hne := h e he
  cases e <;> simp_all [is_download_event, download_start_name]

/-! Wrapper lemmas lifting the loop lemmas to `download_patches`,
`apply_patches`, and the command-waiting loop. -/

theorem download_patches_no_apply_event (l : ThorPatchList) (env : Nat → DlStepOutcome) :
    ∀ e ∈ (download_patches l env).2, is_apply_event e = false := by
  intro e he
  simp only [download_patches, List.mem_cons] at he
  rcases he with he | he
  · subst he; rfl
  · exact download_loop_no_apply_event env l.length l 0 e he

theorem apply_patches_no_download_event (q : List PendingPatch)
    (c : Except String Unit) (env : Nat → ApplyStepEnv) :
    ∀ e ∈ (apply_patches q c env).2, is_download_event e = false := by
  intro e he
  cases c with
  | error msg => simp [apply_patches] at he
  | ok u =>
    simp only [apply_patches, List.mem_cons] at he
    rcases he with he | he
    · subst he; rfl
    · exact apply_loop_no_download_event env q.length q 0 e he

theorem download_patches_names_prefix (l : ThorPatchList) (env : Nat → DlStepOutcome) :
    ∃ t, (download_patches l env).2.filterMap download_start_name ++ t =
      l.map (fun p => p.file_name) := by
  obtain ⟨t, ht⟩ := download_loop_names_prefix env l.length l 0
  exact ⟨t, by simpa [download_patches, download_start_name] using ht⟩

theorem download_patches_ok_spec (l : ThorPatchList) (env : Nat → DlStepOutcome)
    (q : List PendingPatch) (h : (download_patches l env).1 = .ok q) :
    q.map (fun pp => pp.info) = l ∧
    (download_patches l env).2.filterMap download_start_name =
      l.map (fun p => p.file_name) := by
  have h0 : (download_loop env l.length l 0).1 = .ok q := by
    simpa [download_patches] using h
  obtain ⟨hmap, hnames, _⟩ := download_loop_ok_spec env l.length l 0 q h0
  exact ⟨hmap, by simpa [download_patches, download_start_name] using hnames⟩

theorem apply_patches_start_names_prefix (q : List PendingPatch)
    (c : Except String Unit) (env : Nat → ApplyStepEnv) :
    ∃ s, (apply_patches q c env).2.filterMap apply_start_name =
      (q.take s).map (fun pp => pp.info.file_name) := by
  cases c with
  | error msg => exact ⟨0, by simp [apply_patches]⟩
  | ok u =>
    exact ⟨started_len env q 0,
      by simp [apply_patches, apply_start_name, apply_loop_start_names]⟩

theorem take_map_prefix (q : List PendingPatch) (s : Nat) :
    (q.take s).map (fun pp => pp.info.file_name) ++
      (q.drop s).map (fun pp => pp.info.file_name) =
    (q.map (fun pp => pp.info)).map (fun p => p.file_name) := by
  rw [← List.map_append, List.take_append_drop, List.map_map]
  rfl

theorem wait_for_start_skip (pre rest : List PatcherCommand)
    (hpre : ∀ c ∈ pre, c ≠ PatcherCommand.Start) :
    wait_for_start_command (pre ++ PatcherCommand.Start :: rest) = .ok rest := by
  induction pre with
  | nil => rfl
  | cons c pre ih =>
    cases c with
    | Start => exact absurd rfl (hpre _ (by simp))
    | Cancel =>
      simpa [wait_for_start_command] using ih (fun c hc => hpre c (by simp [hc]))

theorem wait_for_start_closed (cmds : List PatcherCommand)
    (h : ∀ c ∈ cmds, c ≠ PatcherCommand.Start) :
    wait_for_start_command cmds = .error ("Channel has been closed") := by
  induction cmds with
  | nil => rfl
  | cons c cmds ih =>
    cases c with
    | Start => exact absurd rfl (h _ (by simp))
    | Cancel => simpa [wait_for_start_command] using ih (fun c hc => h c (by simp [hc]))

/-! Claim theorems. -/

/-- C1: Checkpoint filtering.  For every fetched manifest `M` and
checkpoint record `c`, if some entry of `M` has index equal to
`c.last_patch_index` then the patch list used for download is exactly the
subsequence of `M` whose entries have a strictly greater index, in `M`'s
original order (`List.filter` preserves order); if no entry matches, or
the checkpoint could not be read, the list is `M` unchanged. -/
theorem C1_checkpoint_filtering (M : ThorPatchList) (c : PatcherCache) :
    ((∃ x ∈ M, x.index = c.last_patch_index) →
      effective_patch_list M (.ok c) =
        M.filter (fun x => decide (c.last_patch_index < x.index))) ∧
    ((∀ x ∈ M, x.index ≠ c.last_patch_index) → effective_patch_list M (.ok c) = M) ∧
    (∀ msg : String, effective_patch_list M (.error msg) = M) := by
  refine ⟨?_, ?_, fun _ => rfl⟩
  · rintro ⟨x, hx, hidx⟩
    have hany : M.any (fun x => x.index == c.last_patch_index) = true := by
      rw [List.any_eq_true]
      exact ⟨x, hx, by simp [hidx]⟩
    simp [effective_patch_list, filter_patch_list, hany]
  · intro hall
    have hany : M.any (fun x => x.index == c.last_patch_index) = false := by
      rw [List.any_eq_false]
      intro x hx
      simp [hall x hx]
    simp [effective_patch_list, filter_patch_list, hany]

/-- Witness for C1 at a concrete manifest: a matching checkpoint filters
to the strictly-later entries; a stale checkpoint leaves the manifest
unchanged. -/
theorem C1_checkpoint_filtering_witness :
    effective_patch_list c1_M (.ok { last_patch_index := 1 }) =
      [{ index := 2, file_name := "b.thor" }] ∧
    effective_patch_list c1_M (.ok { last_patch_index := 7 }) = c1_M := by
  constructor
  · have h := (C1_checkpoint_filtering c1_M { last_patch_index := 1 }).1
      ⟨{ index := 1, file_name := "a.thor" }, by decide, by decide⟩
    rw [h]; decide
  · exact (C1_checkpoint_filtering c1_M { last_patch_index := 7 }).2.1 (by decide)

/-- C2: Checkpoint write discipline.  Over a pending queue whose indices
ascend, the checkpoint write attempts of a run of `apply_patches` are
exactly one per fully-applied patch, in order, each carrying that patch's
index (so writes happen only for patches whose apply step fully
succeeded); the successfully persisted indices are strictly increasing
within the run; and neither the run's result nor which patches get
applied depends on whether the checkpoint writes succeed (a failed write
is logged and the loop continues). -/
theorem C2_checkpoint_write_discipline (q : List PendingPatch) (env : Nat → ApplyStepEnv)
    (hsorted : (q.map (fun pp => pp.info.index)).Pairwise (· < ·)) :
    ((apply_patches q (.ok ()) env).2.filterMap write_attempt_index =
      (q.take (applied_len env q 0)).map (fun pp => pp.info.index)) ∧
    ((apply_patches q (.ok ()) env).2.filterMap write_success_index).Pairwise (· < ·) ∧
    (∀ env2 : Nat → ApplyStepEnv,
      (∀ i, (env2 i).cancel = (env i).cancel ∧ (env2 i).outcome = (env i).outcome) →
      (apply_patches q (.ok ()) env2).1 = (apply_patches q (.ok ()) env).1 ∧
      (apply_patches q (.ok ()) env2).2.filterMap apply_start_name =
        (apply_patches q (.ok ()) env).2.filterMap apply_start_name) := by
  have hattempt : (apply_patches q (.ok ()) env).2.filterMap write_attempt_index =
      (q.take (applied_len env q 0)).map (fun pp => pp.info.index) := by
    simp [apply_patches, write_attempt_index, apply_loop_write_attempts]
  have htake : ((q.take (applied_len env q 0)).map (fun pp => pp.info.index)).Pairwise
      (· < ·) := by
    have h1 : (q.take (applied_len env q 0)).map (fun pp => pp.info.index) =
        (q.map (fun pp => pp.info.index)).take (applied_len env q 0) := by
      simp [List.map_take]
    rw [h1]
    exact List.Pairwise.sublist (List.take_sublist _ _) hsorted
  refine ⟨hattempt, ?_, ?_⟩
  · have hsub := write_success_sublist (apply_patches q (.ok ()) env).2
    rw [hattempt] at hsub
    exact List.Pairwise.sublist hsub htake
  · intro env2 hagree
    obtain ⟨h1, h2⟩ := apply_loop_write_ok_independent env env2 q.length hagree q 0
    exact ⟨by simp [apply_patches, h1], by simp [apply_patches, apply_start_name, h2]⟩

/-- Witness for C2 at a concrete queue and environment, including the
write-failure independence conjunct at a second environment. -/
theorem C2_checkpoint_write_discipline_witness :
    ((apply_patches c2_q (.ok ()) c2_env).2.filterMap write_attempt_index =
      (c2_q.take (applied_len c2_env c2_q 0)).map (fun pp => pp.info.index)) ∧
    ((apply_patches c2_q (.ok ()) c2_env).2.filterMap write_success_index).Pairwise
      (· < ·) ∧
    (apply_patches c2_q (.ok ()) c2_env2).1 = (apply_patches c2_q (.ok ()) c2_env).1 := by
  have h := C2_checkpoint_write_discipline c2_q c2_env (by decide)
  refine ⟨h.1, h.2.1, ?_⟩
  have h3 := h.2.2 c2_env2 (by
    intro i
    by_cases hi : i = 0 <;> simp [c2_env, c2_env2, hi])
  exact h3.1

/-- C5: Apply-phase cancellation semantics.  `apply_patches` polls
cancellation non-blockingly before each patch: if the first `k` polls are
silent and the first `k` patches fully apply, and the poll before patch
`k + 1` signals cancellation, then the run returns the distinguished
`Interrupted` outcome, exactly the first `k` patches were started and
checkpointed (each write carrying that patch's index, so the checkpoint
ends at patch `k`'s index), and patch `k + 1` onward are never started
(no apply step is ever aborted mid-way: every started patch in the trace
ran to completion). -/
theorem C5_apply_phase_cancellation (q : List PendingPatch) (env : Nat → ApplyStepEnv)
    (k : Nat)
    (h1 : ∀ i, i < k → (env i).cancel = false ∧ (env i).outcome = .ok)
    (h2 : (env k).cancel = true) (h3 : k < q.length) :
    (apply_patches q (.ok ()) env).1 = .error .Interrupted ∧
    (apply_patches q (.ok ()) env).2.filterMap write_attempt_index =
      (q.take k).map (fun pp => pp.info.index) ∧
    (apply_patches q (.ok ()) env).2.filterMap apply_start_name =
      (q.take k).map (fun pp => pp.info.file_name) := by
  have h2a : (env (0 + k)).cancel = true := by simpa using h2
  have h1a : ∀ i, i < k → (env (0 + i)).cancel = false ∧ (env (0 + i)).outcome = .ok := by
    intro i hi; simpa using h1 i hi
  obtain ⟨hres, hal, hsl⟩ := apply_loop_cancel_at env q.length k q 0 h1a h2a h3
  refine ⟨by simp [apply_patches, hres], ?_, ?_⟩
  · have h4 := apply_loop_write_attempts env q.length q 0
    rw [hal] at h4
    simpa [apply_patches, write_attempt_index] using h4
  · have h4 := apply_loop_start_names env q.length q 0
    rw [hsl] at h4
    simpa [apply_patches, apply_start_name] using h4

/-- Witness for C5: with cancellation after two applied patches of three,
the run is interrupted, exactly the first two patches are checkpointed
and started. -/
theorem C5_apply_phase_cancellation_witness :
    (apply_patches c5_q (.ok ()) c5_env).1 = .error .Interrupted ∧
    (apply_patches c5_q (.ok ()) c5_env).2.filterMap write_attempt_index =
      (c5_q.take 2).map (fun pp => pp.info.index) ∧
    (apply_patches c5_q (.ok ()) c5_env).2.filterMap apply_start_name =
      (c5_q.take 2).map (fun pp => pp.info.file_name) :=
  C5_apply_phase_cancellation c5_q c5_env 2
    (by intro i hi; interval_cases i <;> simp [c5_env])
    (by simp [c5_env]) (by decide)

/-- C7: Pending-patch invariant.  Whenever the download phase hands a
queue to the apply phase (`download_patches` returns `ok`), the queue
lists exactly the requested manifest entries in order, every queued file
is positioned at offset 0, and every queued file holds the complete
payload that its (successful) download produced. -/
theorem C7_pending_patch_invariant (patch_list : ThorPatchList)
    (env : Nat → DlStepOutcome) (q : List PendingPatch)
    (h : (download_patches patch_list env).1 = .ok q) :
    q.map (fun pp => pp.info) = patch_list ∧
    (∀ pp ∈ q, pp.local_file.pos = 0) ∧
    (∀ i (hi : i < q.length),
      ∃ content, env i = .dlOk content ∧
        (q.get ⟨i, hi⟩).local_file = { content := content, pos := 0 }) := by
  have h0 : (download_loop env patch_list.length patch_list 0).1 = .ok q := by
    simpa [download_patches] using h
  obtain ⟨hmap, hnames, hget⟩ :=
    download_loop_ok_spec env patch_list.length patch_list 0 q h0
  refine ⟨hmap, ?_, ?_⟩
  · intro pp hpp
    obtain ⟨⟨i, hi⟩, rfl⟩ := List.mem_iff_get.mp hpp
    obtain ⟨content, hc, hf⟩ := hget i hi
    rw [hf]
  · intro i hi
    have h5 := hget i hi
    simpa using h5

/-- Witness for C7 at a concrete successful download run. -/
theorem C7_pending_patch_invariant_witness :
    c7_q.map (fun pp => pp.info) = c7_list ∧
    (∀ pp ∈ c7_q, pp.local_file.pos = 0) ∧
    (∀ i (hi : i < c7_q.length),
      ∃ content, c7_env i = .dlOk content ∧
        (c7_q.get ⟨i, hi⟩).local_file = { content := content, pos := 0 }) :=
  C7_pending_patch_invariant c7_list c7_env c7_q (by rfl)

/-- C3: Phase separation.  Under a fetched manifest `M`, the routine's
event trace splits into a download-phase part followed by an apply-phase
part (the two phases never interleave); if the download phase ends with a
fatal or cancelled outcome, the whole trace contains no apply event at
all (no patch is ever applied); and within each phase the per-entry start
markers follow the filtered patch list strictly in order (each marker
sequence is a prefix of the filtered list's file names). -/
theorem C3_phase_separation (config : PatcherConfiguration) (env : RoutineEnv)
    (M : ThorPatchList) (hfetch : env.fetch_res = .ok M) :
    (∃ t1 t2, (interruptible_patcher_routine config env).2 = t1 ++ t2 ∧
      (∀ e ∈ t1, is_apply_event e = false) ∧
      (∀ e ∈ t2, is_download_event e = false)) ∧
    (∀ err, (download_patches (effective_patch_list M env.cache_read) env.dl_env).1 =
        .error err →
      ∀ e ∈ (interruptible_patcher_routine config env).2, is_apply_event e = false) ∧
    (∃ t, (interruptible_patcher_routine config env).2.filterMap download_start_name ++
        t = (effective_patch_list M env.cache_read).map (fun p => p.file_name)) ∧
    (∃ t, (interruptible_patcher_routine config env).2.filterMap apply_start_name ++
        t = (effective_patch_list M env.cache_read).map (fun p => p.file_name)) := by
  have empty_case : (interruptible_patcher_routine config env).2 = [] →
      (∃ t1 t2, (interruptible_patcher_routine config env).2 = t1 ++ t2 ∧
        (∀ e ∈ t1, is_apply_event e = false) ∧
        (∀ e ∈ t2, is_download_event e = false)) ∧
      (∀ err, (download_patches (effective_patch_list M env.cache_read) env.dl_env).1 =
          .error err →
        ∀ e ∈ (interruptible_patcher_routine config env).2, is_apply_event e = false) ∧
      (∃ t, (interruptible_patcher_routine config env).2.filterMap download_start_name ++
          t = (effective_patch_list M env.cache_read).map (fun p => p.file_name)) ∧
      (∃ t, (interruptible_patcher_routine config env).2.filterMap apply_start_name ++
          t = (effective_patch_list M env.cache_read).map (fun p => p.file_name)) := by
    intro htr
    rw [htr]
    refine ⟨⟨[], [], rfl, by simp, by simp⟩, ?_, ?_, ?_⟩
    · intro err hd e he
      simp at he
    · exact ⟨(effective_patch_list M env.cache_read).map (fun p => p.file_name), by simp⟩
    · exact ⟨(effective_patch_list M env.cache_read).map (fun p => p.file_name), by simp⟩
  cases hv1 : env.url_valid config.web.plist_url with
  | false => exact empty_case (by simp [interruptible_patcher_routine, Url.parse, hv1])
  | true =>
  cases hn : env.patcher_name with
  | none =>
    exact empty_case (by simp [interruptible_patcher_routine, Url.parse, hv1, hfetch,
      get_cache_file_path, hn])
  | some nm =>
  cases hv2 : env.url_valid config.web.patch_url with
  | false =>
    exact empty_case (by simp [interruptible_patcher_routine, Url.parse, hv1, hfetch,
      get_cache_file_path, hn, hv2])
  | true =>
  cases hd : (download_patches (effective_patch_list M env.cache_read) env.dl_env).1 with
  | error err0 =>
    have htr : (interruptible_patcher_routine config env).2 =
        (download_patches (effective_patch_list M env.cache_read) env.dl_env).2 := by
      cases err0 <;>
        simp [interruptible_patcher_routine, Url.parse, hv1, hv2, hfetch, hn,
          get_cache_file_path, hd]
    rw [htr]
    refine ⟨⟨(download_patches (effective_patch_list M env.cache_read) env.dl_env).2, [],
        by simp, download_patches_no_apply_event _ _, by simp⟩,
      ?_, download_patches_names_prefix _ _, ?_⟩
    · intro err hd2 e he
      exact download_patches_no_apply_event _ _ e he
    · refine ⟨(effective_patch_list M env.cache_read).map (fun p => p.file_name), ?_⟩
      rw [no_apply_event_filterMap_start _ (download_patches_no_apply_event _ _)]
      simp
  | ok q =>
    obtain ⟨hqmap, hqnames⟩ := download_patches_ok_spec _ env.dl_env q hd
    obtain ⟨s, hs⟩ := apply_patches_start_names_prefix q env.cwd_res env.apply_env
    obtain ⟨t, ht, htr⟩ :
        ∃ t, (∀ e ∈ t, is_apply_event e = false ∧ is_download_event e = false) ∧
          (interruptible_patcher_routine config env).2 =
            (download_patches (effective_patch_list M env.cache_read) env.dl_env).2 ++
              ((apply_patches q env.cwd_res env.apply_env).2 ++ t) := by
      cases ha : (apply_patches q env.cwd_res env.apply_env).1 with
      | error aerr =>
        refine ⟨[], by simp, ?_⟩
        cases aerr <;>
          simp [interruptible_patcher_routine, Url.parse, hv1, hv2, hfetch, hn,
            get_cache_file_path, hd, ha]
      | ok u =>
        refine ⟨[Event.status .Ready], ?_, ?_⟩
        · intro e he
          simp at he
          subst he
          exact ⟨rfl, rfl⟩
        · simp [interruptible_patcher_routine, Url.parse, hv1, hv2, hfetch, hn,
            get_cache_file_path, hd, ha]
    rw [htr]
    refine ⟨⟨(download_patches (effective_patch_list M env.cache_read) env.dl_env).2,
        (apply_patches q env.cwd_res env.apply_env).2 ++ t, rfl,
        download_patches_no_apply_event _ _, ?_⟩, ?_, ?_, ?_⟩
    · intro e he
      rcases List.mem_append.mp he with he | he
      · exact apply_patches_no_download_event _ _ _ e he
      · exact (ht e he).2
    · intro err hd2 e he
      exact absurd hd2 (by simp)
    · refine ⟨[], ?_⟩
      have hrest : ((apply_patches q env.cwd_res env.apply_env).2 ++ t).filterMap
          download_start_name = [] := by
        apply no_download_event_filterMap_start
        intro e he
        rcases List.mem_append.mp he with he | he
        · exact apply_patches_no_download_event _ _ _ e he
        · exact (ht e he).2
      simp [List.filterMap_append, hrest, hqnames]
    · refine ⟨(q.drop s).map (fun pp => pp.info.file_name), ?_⟩
      have hdl0 : (download_patches (effective_patch_list M env.cache_read)
          env.dl_env).2.filterMap apply_start_name = [] :=
        no_apply_event_filterMap_start _ (download_patches_no_apply_event _ _)
      have ht0 : t.filterMap apply_start_name = [] :=
        no_apply_event_filterMap_start t (fun e he => (ht e he).1)
      have htk := take_map_prefix q s
      rw [hqmap] at htk
      simp only [List.filterMap_append, hdl0, ht0, hs, List.nil_append, List.append_nil,
        List.append_assoc]
      exact htk

/-- Witness for C3 at a concrete cancelled-download run: the trace splits
into phases and contains no apply event. -/
theorem C3_phase_separation_witness :
    (∃ t1 t2, (interruptible_patcher_routine demo_config c3_env).2 = t1 ++ t2 ∧
      (∀ e ∈ t1, is_apply_event e = false) ∧
      (∀ e ∈ t2, is_download_event e = false)) ∧
    (∀ e ∈ (interruptible_patcher_routine demo_config c3_env).2,
      is_apply_event e = false) := by
  have h := C3_phase_separation demo_config c3_env demo_M (by rfl)
  exact ⟨h.1, h.2.1 .Interrupted (by rfl)⟩

/-- C4 counterexample: at a concrete run whose first download is
cancelled, the terminal outcome surfaced to the status outlet is
`PatchingStatus.Error` with the message "Patching was canceled", the
cancellation is logged through the error log, and no `Cancelled` status
is ever dispatched — refuting the claim that cancellation is surfaced as
a distinct `Cancelled` outcome and never as an `Error` status. -/
theorem C4_cancellation_counterexample :
    Event.status (.Error ("Patching was canceled")) ∈
      (patcher_thread_routine demo_config c4_env [PatcherCommand.Start]).2 ∧
    Event.logError ("Patching was canceled") ∈
      (patcher_thread_routine demo_config c4_env [PatcherCommand.Start]).2 ∧
    Event.status .Cancelled ∉
      (patcher_thread_routine demo_config c4_env [PatcherCommand.Start]).2 := by
  decide

/-- C4 (amended): whenever a run ends because cancellation was signalled
(during download, or between apply steps), the routine returns the fixed
distinguished message "Patching was canceled" — internally cancellation
is the distinct `Interrupted` variant — but the terminal outcome surfaced
to the status outlet is `PatchingStatus.Error` carrying that message, and
the message is also logged through the error log: cancellation is
distinguishable from other failures only by its message, not by the
status constructor. -/
theorem C4_cancellation_reported_as_error (config : PatcherConfiguration)
    (env : RoutineEnv) (commands rest : List PatcherCommand) (M : ThorPatchList)
    (nm : String)
    (hwait : wait_for_start_command commands = .ok rest)
    (hv1 : env.url_valid config.web.plist_url = true)
    (hv2 : env.url_valid config.web.patch_url = true)
    (hfetch : env.fetch_res = .ok M)
    (hn : env.patcher_name = some nm)
    (hint : (download_patches (effective_patch_list M env.cache_read) env.dl_env).1 =
        .error .Interrupted ∨
      (∃ q, (download_patches (effective_patch_list M env.cache_read) env.dl_env).1 =
          .ok q ∧
        (apply_patches q env.cwd_res env.apply_env).1 = .error .Interrupted)) :
    (interruptible_patcher_routine config env).1 =
      .done (.error ("Patching was canceled")) ∧
    (patcher_thread_routine config env commands).1 = .done () ∧
    (patcher_thread_routine config env commands).2 =
      (interruptible_patcher_routine config env).2 ++
        [Event.logError ("Patching was canceled"),
          Event.status (.Error ("Patching was canceled"))] := by
  have h1 : (interruptible_patcher_routine config env).1 =
      .done (.error ("Patching was canceled")) := by
    rcases hint with hd | ⟨q, hd, ha⟩
    · simp [interruptible_patcher_routine, Url.parse, hv1, hv2, hfetch, hn,
        get_cache_file_path, hd]
    · simp [interruptible_patcher_routine, Url.parse, hv1, hv2, hfetch, hn,
        get_cache_file_path, hd, ha]
  cases hr : interruptible_patcher_routine config env with
  | mk r evts =>
    have h2 : r = .done (.error ("Patching was canceled")) := by
      have := h1
      rw [hr] at this
      exact this
    subst h2
    refine ⟨rfl, ?_, ?_⟩
    · simp [patcher_thread_routine, hwait, hr]
    · simp [patcher_thread_routine, hwait, hr]

/-- Witness for the amended C4 at the concrete cancelled-download run. -/
theorem C4_cancellation_reported_as_error_witness :
    (interruptible_patcher_routine demo_config c4_env).1 =
      .done (.error ("Patching was canceled")) ∧
    (patcher_thread_routine demo_config c4_env [PatcherCommand.Start]).1 = .done () ∧
    (patcher_thread_routine demo_config c4_env [PatcherCommand.Start]).2 =
      (interruptible_patcher_routine demo_config c4_env).2 ++
        [Event.logError ("Patching was canceled"),
          Event.status (.Error ("Patching was canceled"))] :=
  C4_cancellation_reported_as_error demo_config c4_env [PatcherCommand.Start] []
    demo_M ("patcher") (by rfl) (by rfl) (by rfl) (by rfl) (by rfl)
    (Or.inl (by rfl))

/-- C6 evaluated at its failing input: with a single-entry patch list
whose download and apply both succeed, the progress events of each phase
are the initial `(0, 1)` event followed by another `(0, 1)` event — the
event after the first (and only) success carries the 0-based entry number
`0`, not the number of completed entries `1`, and no `(1, 1)` event is
ever emitted in either phase. -/
theorem C6_progress_events_off_by_one :
    ((download_patches c6_list c6_dl_env).2.filterMap status_event =
      [PatchingStatus.DownloadInProgress 0 1, PatchingStatus.DownloadInProgress 0 1]) ∧
    (PatchingStatus.DownloadInProgress 1 1 ∉
      (download_patches c6_list c6_dl_env).2.filterMap status_event) ∧
    ((apply_patches c6_q (.ok ()) c6_apply_env).2.filterMap status_event =
      [PatchingStatus.InstallationInProgress 0 1,
        PatchingStatus.InstallationInProgress 0 1]) ∧
    (PatchingStatus.InstallationInProgress 1 1 ∉
      (apply_patches c6_q (.ok ()) c6_apply_env).2.filterMap status_event) := by
  refine ⟨by decide, by decide, by decide, by decide⟩

/-- C8: Idle-state command handling.  While waiting for the start signal
every command other than `Start` is discarded and the wait continues
until a `Start` arrives (the remaining commands are handed to the
pipeline, which then runs); if the channel closes (is exhausted) without
a `Start`, the routine ends having emitted only the waiting-failure log
line — in particular no status (and no `Error` status) is dispatched and
the pipeline is never entered. -/
theorem C8_idle_command_handling (config : PatcherConfiguration) (env : RoutineEnv)
    (pre rest cmds : List PatcherCommand)
    (hpre : ∀ c ∈ pre, c ≠ PatcherCommand.Start)
    (hnostart : ∀ c ∈ cmds, c ≠ PatcherCommand.Start) :
    wait_for_start_command (pre ++ PatcherCommand.Start :: rest) = .ok rest ∧
    (∃ t, (patcher_thread_routine config env (pre ++ PatcherCommand.Start :: rest)).2 =
      (interruptible_patcher_routine config env).2 ++ t) ∧
    wait_for_start_command cmds = .error ("Channel has been closed") ∧
    (patcher_thread_routine config env cmds).2 =
      [Event.logError ("Failed to wait for start command: Channel has been closed")] ∧
    (∀ s, Event.status s ∉ (patcher_thread_routine config env cmds).2) := by
  have hw := wait_for_start_skip pre rest hpre
  have hcl := wait_for_start_closed cmds hnostart
  refine ⟨hw, ?_, hcl, ?_, ?_⟩
  · cases hr : interruptible_patcher_routine config env with
    | mk r evts =>
      cases r with
      | panicked => exact ⟨[], by simp [patcher_thread_routine, hw, hr]⟩
      | done res =>
        cases res with
        | error msg =>
          exact ⟨[Event.logError msg, Event.status (.Error msg)],
            by simp [patcher_thread_routine, hw, hr]⟩
        | ok u => exact ⟨[], by simp [patcher_thread_routine, hw, hr]⟩
  · simp [patcher_thread_routine, hcl]
  · intro s
    simp [patcher_thread_routine, hcl]

/-- Witness for C8 at concrete command sequences: two discarded `Cancel`
commands before a `Start`, and a channel that closes after delivering
only `Cancel` commands. -/
theorem C8_idle_command_handling_witness :
    wait_for_start_command
      ([PatcherCommand.Cancel] ++ PatcherCommand.Start :: [PatcherCommand.Cancel]) =
      .ok [PatcherCommand.Cancel] ∧
    wait_for_start_command [PatcherCommand.Cancel, PatcherCommand.Cancel] =
      .error ("Channel has been closed") ∧
    (patcher_thread_routine demo_config c9_env_good
        [PatcherCommand.Cancel, PatcherCommand.Cancel]).2 =
      [Event.logError ("Failed to wait for start command: Channel has been closed")] := by
  have h := C8_idle_command_handling demo_config c9_env_good
    [PatcherCommand.Cancel] [PatcherCommand.Cancel]
    [PatcherCommand.Cancel, PatcherCommand.Cancel] (by decide) (by decide)
  exact ⟨h.1, h.2.2.1, h.2.2.2.1⟩

/-- C9: Implicit precondition on configured URLs.  The routine parses the
two configured URL strings with `unwrap`: if the patch-list URL is
invalid the routine panics immediately (empty trace, and the surrounding
thread routine ends panicked without dispatching any status, in
particular no `Error` status); if the patch-list URL is valid but the
patch base URL is invalid, the routine panics after the fetch and
checkpoint steps; and when both configured URLs are valid the routine
never panics. -/
theorem C9_url_unwrap_precondition (config : PatcherConfiguration) (env : RoutineEnv)
    (M : ThorPatchList) (nm : String) :
    (env.url_valid config.web.plist_url = false →
      interruptible_patcher_routine config env = (.panicked, [])) ∧
    (env.url_valid config.web.plist_url = true →
      env.fetch_res = .ok M → env.patcher_name = some nm →
      env.url_valid config.web.patch_url = false →
      interruptible_patcher_routine config env = (.panicked, [])) ∧
    (env.url_valid config.web.plist_url = true →
      env.url_valid config.web.patch_url = true →
      (interruptible_patcher_routine config env).1 ≠ .panicked) ∧
    (env.url_valid config.web.plist_url = false →
      ∀ cmds rest, wait_for_start_command cmds = .ok rest →
        (patcher_thread_routine config env cmds).1 = .panicked ∧
        ∀ s, Event.status s ∉ (patcher_thread_routine config env cmds).2) := by
  refine ⟨?_, ?_, ?_, ?_⟩
  · intro hv1
    simp [interruptible_patcher_routine, Url.parse, hv1]
  · intro hv1 hfetch hn hv2
    simp [interruptible_patcher_routine, Url.parse, hv1, hfetch, hn,
      get_cache_file_path, hv2]
  · intro hv1 hv2
    cases hfetch : env.fetch_res with
    | error e => simp [interruptible_patcher_routine, Url.parse, hv1, hfetch]
    | ok M2 =>
      cases hn : env.patcher_name with
      | none =>
        simp [interruptible_patcher_routine, Url.parse, hv1, hfetch, hn,
          get_cache_file_path]
      | some nm2 =>
        cases hd : (download_patches (effective_patch_list M2 env.cache_read)
            env.dl_env).1 with
        | error err =>
          cases err <;>
            simp [interruptible_patcher_routine, Url.parse, hv1, hv2, hfetch, hn,
              get_cache_file_path, hd]
        | ok q =>
          cases ha : (apply_patches q env.cwd_res env.apply_env).1 with
          | error aerr =>
            cases aerr <;>
              simp [interruptible_patcher_routine, Url.parse, hv1, hv2, hfetch, hn,
                get_cache_file_path, hd, ha]
          | ok u =>
            simp [interruptible_patcher_routine, Url.parse, hv1, hv2, hfetch, hn,
              get_cache_file_path, hd, ha]
  · intro hv1 cmds rest hwt
    have h1 : interruptible_patcher_routine config env = (.panicked, []) := by
      simp [interruptible_patcher_routine, Url.parse, hv1]
    constructor
    · simp [patcher_thread_routine, hwt, h1]
    · intro s
      simp [patcher_thread_routine, hwt, h1]

/-- Witness for C9: a run with rejected URLs panics with an empty trace;
the same run with accepted URLs does not panic. -/
theorem C9_url_unwrap_precondition_witness :
    interruptible_patcher_routine demo_config c9_env = (.panicked, []) ∧
    (interruptible_patcher_routine demo_config c9_env_good).1 ≠ .panicked := by
  constructor
  · exact (C9_url_unwrap_precondition demo_config c9_env demo_M ("patcher")).1 (by rfl)
  · exact (C9_url_unwrap_precondition demo_config c9_env_good demo_M
      ("patcher")).2.2.1 (by rfl) (by rfl)

/-- C10: Cache-path resolution is fatal.  With the manifest fetch
succeeded, an unresolvable patcher name makes the run return the fatal
error "Failed to resolve patcher name." with an empty event trace — so
after the manifest fetch, before any download or apply step; by contrast
a failing checkpoint read is non-fatal: the run still enters the download
phase (dispatching the initial download progress event over the whole
manifest). -/
theorem C10_cache_path_resolution_fatal (config : PatcherConfiguration)
    (env : RoutineEnv) (M : ThorPatchList) (e : String)
    (hv1 : env.url_valid config.web.plist_url = true)
    (hfetch : env.fetch_res = .ok M) :
    (env.patcher_name = none →
      interruptible_patcher_routine config env =
        (.done (.error ("Failed to resolve patcher name.")), [])) ∧
    (∀ nm, env.patcher_name = some nm →
      env.url_valid config.web.patch_url = true →
      env.cache_read = .error e →
      Event.status (.DownloadInProgress 0 M.length) ∈
        (interruptible_patcher_routine config env).2) := by
  constructor
  · intro hn
    simp [interruptible_patcher_routine, Url.parse, hv1, hfetch, hn,
      get_cache_file_path]
  · intro nm hn hv2 hcr
    have hpl : effective_patch_list M env.cache_read = M := by
      simp [effective_patch_list, hcr]
    have hhead : Event.status (.DownloadInProgress 0 M.length) ∈
        (download_patches (effective_patch_list M env.cache_read) env.dl_env).2 := by
      rw [hpl]
      simp [download_patches]
    cases hd : (download_patches (effective_patch_list M env.cache_read)
        env.dl_env).1 with
    | error err =>
      have htr : (interruptible_patcher_routine config env).2 =
          (download_patches (effective_patch_list M env.cache_read) env.dl_env).2 := by
        cases err <;>
          simp [interruptible_patcher_routine, Url.parse, hv1, hv2, hfetch, hn,
            get_cache_file_path, hd]
      rw [htr]
      exact hhead
    | ok q =>
      cases ha : (apply_patches q env.cwd_res env.apply_env).1 with
      | error aerr =>
        have htr : (interruptible_patcher_routine config env).2 =
            (download_patches (effective_patch_list M env.cache_read) env.dl_env).2 ++
              (apply_patches q env.cwd_res env.apply_env).2 := by
          cases aerr <;>
            simp [interruptible_patcher_routine, Url.parse, hv1, hv2, hfetch, hn,
              get_cache_file_path, hd, ha]
        rw [htr]
        exact List.mem_append_left _ hhead
      | ok u =>
        have htr : (interruptible_patcher_routine config env).2 =
            (download_patches (effective_patch_list M env.cache_read) env.dl_env).2 ++
              (apply_patches q env.cwd_res env.apply_env).2 ++
                [Event.status .Ready] := by
          simp [interruptible_patcher_routine, Url.parse, hv1, hv2, hfetch, hn,
            get_cache_file_path, hd, ha]
        rw [htr]
        exact List.mem_append_left _ (List.mem_append_left _ hhead)

/-- Witness for C10 at concrete runs: an unresolvable patcher name aborts
with the fatal resolve error and an empty trace; a resolvable name with a
failing checkpoint read proceeds into the download phase. -/
theorem C10_cache_path_resolution_fatal_witness :
    interruptible_patcher_routine demo_config c10_env =
      (.done (.error ("Failed to resolve patcher name.")), []) ∧
    Event.status (.DownloadInProgress 0 demo_M.length) ∈
      (interruptible_patcher_routine demo_config c10_env_named).2 := by
  constructor
  · exact (C10_cache_path_resolution_fatal demo_config c10_env demo_M ("no cache")
      (by rfl) (by rfl)).1 (by rfl)
  · exact (C10_cache_path_resolution_fatal demo_config c10_env_named demo_M
      ("no cache") (by rfl) (by rfl)).2 ("patcher") (by rfl) (by rfl) (by rfl)

end Rpatchur
